import Mathlib

/-!
# Verification of the red-ellipse ROI extractor (`cover_red.py`)

Shallow embedding of the region-of-interest extraction pipeline of
`cover_red.py`:

* a binary color mask is a rectangular grid of booleans
  (`List (List Bool)`, row major, as produced by `cv2.inRange`);
* `find_red_bbox` derives the bounding box of the marked pixels by
  first/last-true scans over the per-row / per-column "any marked" vectors
  (the `np.argmax` reductions of the source);
* the ellipse geometry (center and semi-axes) is derived from the bounding
  box with integer floor division;
* compositing keeps the pixels inside the filled ellipse and sets every
  other pixel to black;
* file naming, batch discovery and the batch loop are embedded over a
  small model of file names and an abstract file store.

Machine integers of the source are embedded as `Nat` (all quantities are
non-negative; Python `//` on non-negative integers coincides with `Nat`
division) or `Int` where a difference occurs.
-/

namespace CoverRed

/-- `np.argmax` over a vector of booleans: the index of the first `true`
(in numpy `True > False`, and `argmax` returns the first index attaining
the maximum), or `0` when every entry is `false` (the maximum is then
`false`, first attained at index 0). -/
def argmaxBool (l : List Bool) : Nat :=
  if l.any id then l.findIdx id else 0

/-- `find_red_bbox` (`cover_red.py`, lines 37-53).  From the binary mask it
computes `rows_has_red = np.any(red_mask, axis=1)` and
`cols_has_red = np.any(red_mask, axis=0)`, then the four first/last true
indices, and fails (`RuntimeError`, embedded as `none`) when the resulting
box is degenerate (`x_left >= x_right or y_top >= y_bottom`). -/
def find_red_bbox (red_mask : List (List Bool)) : Option (Nat × Nat × Nat × Nat) :=
  let rows_has_red := red_mask.map (fun row => row.any id)
  let cols_has_red := (List.range (red_mask.headD []).length).map
    (fun j => red_mask.any (fun row => row.getD j false))
  let y_top := argmaxBool rows_has_red
  let y_bottom := rows_has_red.length - 1 - argmaxBool rows_has_red.reverse
  let x_left := argmaxBool cols_has_red
  let x_right := cols_has_red.length - 1 - argmaxBool cols_has_red.reverse
  if x_left ≥ x_right ∨ y_top ≥ y_bottom then none
  else some (x_left, y_top, x_right, y_bottom)

/-- The `h × w` boolean mask whose marked pixels are exactly the axis-aligned
rectangle of rows `r1..r2` and columns `c1..c2` (inclusive).  A rectangular
`h × w` grid of booleans is determined by its entries, so this is the unique
color mask whose marked set is that rectangle. -/
def rectMask (h w r1 r2 c1 c2 : Nat) : List (List Bool) :=
  (List.range h).map (fun i => (List.range w).map
    (fun j => decide (r1 ≤ i ∧ i ≤ r2 ∧ c1 ≤ j ∧ j ≤ c2)))

/-- `argmaxBool` is the first index holding `true`, when all earlier entries
are `false`. -/
theorem argmaxBool_eq_of (l : List Bool) (a : Nat) (ha : a < l.length)
    (ht : l.get ⟨a, ha⟩ = true)
    (hf : ∀ j (hj : j < a), l.get ⟨j, Nat.lt_trans hj ha⟩ = false) :
    argmaxBool l = a := by
  have hany : l.any id = true := by
    simp only [List.any_eq_true, id]
    exact ⟨l.get ⟨a, ha⟩, l.get_mem _ _, ht⟩
  rw [argmaxBool, if_pos hany]
  refine (List.findIdx_eq ha).mpr ⟨by simpa using ht, fun j hj => by simpa using hf j hj⟩

/-- `argmaxBool` over the indicator vector of the band `a ≤ i ≤ b` inside
`0 ≤ i < n` finds the left end `a`. -/
theorem argmaxBool_range_band (n a b : Nat) (hab : a ≤ b) (hb : b < n) :
    argmaxBool ((List.range n).map (fun i => decide (a ≤ i ∧ i ≤ b))) = a := by
  have ha : a < ((List.range n).map (fun i => decide (a ≤ i ∧ i ≤ b))).length := by
    simp; omega
  refine argmaxBool_eq_of _ a ha ?_ ?_
  · simp [List.get_eq_getElem, hab]
  · intro j hj
    simp only [List.get_eq_getElem, List.getElem_map, List.getElem_range,
      decide_eq_false_iff_not]
    omega

/-- `argmaxBool` over the reversed indicator vector of the band `a ≤ i ≤ b`
finds `n - 1 - b`, the distance of the right end from the bottom. -/
theorem argmaxBool_reverse_range_band (n a b : Nat) (hab : a ≤ b) (hb : b < n) :
    argmaxBool ((List.range n).map (fun i => decide (a ≤ i ∧ i ≤ b))).reverse
      = n - 1 - b := by
  have ha : n - 1 - b < ((List.range n).map (fun i => decide (a ≤ i ∧ i ≤ b))).reverse.length := by
    simp; omega
  refine argmaxBool_eq_of _ _ ha ?_ ?_
  · simp only [List.get_eq_getElem, List.getElem_reverse, List.length_map,
      List.length_range, List.getElem_map, List.getElem_range, decide_eq_true_eq]
    omega
  · intro j hj
    simp only [List.length_reverse, List.length_map, List.length_range] at hj ha
    simp only [List.get_eq_getElem, List.getElem_reverse, List.length_map,
      List.length_range, List.getElem_map, List.getElem_range,
      decide_eq_false_iff_not]
    omega

/-- `any` over a mapped list (heterogeneous version). -/
theorem any_map_comp {α β : Type} (l : List α) (f : α → β) (p : β → Bool) :
    (l.map f).any p = l.any (p ∘ f) := by
  induction l with
  | nil => rfl
  | cons a l ih => simp only [List.map_cons, List.any_cons, ih, Function.comp]

/-- Entry `j < w` of `(List.range w).map f`, with any default. -/
theorem getD_range_map {β : Type} (f : Nat → β) (w j : Nat) (hj : j < w) (d : β) :
    ((List.range w).map f).getD j d = f j := by
  rw [List.getD_eq_getElem?_getD, List.getElem?_map]
  simp [List.getElem?_range, hj]

/-- The per-row reduction `np.any(_, axis=1)` of the rectangle mask is the
indicator of the row band `r1 ≤ i ≤ r2`. -/
theorem rows_rectMask (h w r1 r2 c1 c2 : Nat) (hc : c1 ≤ c2) (hcw : c2 < w) :
    (rectMask h w r1 r2 c1 c2).map (fun row => row.any id)
      = (List.range h).map (fun i => decide (r1 ≤ i ∧ i ≤ r2)) := by
  rw [rectMask, List.map_map]
  apply List.map_congr_left
  intro i _
  show ((List.range w).map (fun j => decide (r1 ≤ i ∧ i ≤ r2 ∧ c1 ≤ j ∧ j ≤ c2))).any id
      = decide (r1 ≤ i ∧ i ≤ r2)
  rw [any_map_comp, Bool.eq_iff_iff]
  simp only [List.any_eq_true, List.mem_range, Function.comp, id_eq,
    decide_eq_true_eq]
  constructor
  · rintro ⟨j, hj, hx⟩
    omega
  · intro hi
    exact ⟨c1, by omega, by omega⟩

/-- The per-column reduction `np.any(_, axis=0)` of the rectangle mask is the
indicator of the column band `c1 ≤ j ≤ c2`. -/
theorem cols_rectMask (h w r1 r2 c1 c2 : Nat) (hr : r1 ≤ r2) (hrh : r2 < h) :
    (List.range w).map (fun j => (rectMask h w r1 r2 c1 c2).any (fun row => row.getD j false))
      = (List.range w).map (fun j => decide (c1 ≤ j ∧ j ≤ c2)) := by
  apply List.map_congr_left
  intro j hj
  rw [List.mem_range] at hj
  show (rectMask h w r1 r2 c1 c2).any (fun row => row.getD j false)
      = decide (c1 ≤ j ∧ j ≤ c2)
  rw [rectMask, any_map_comp, Bool.eq_iff_iff]
  simp only [List.any_eq_true, List.mem_range, Function.comp, decide_eq_true_eq]
  constructor
  · rintro ⟨i, hi, hx⟩
    rw [getD_range_map _ w j hj] at hx
    simp only [decide_eq_true_eq] at hx
    omega
  · intro hjc
    refine ⟨r1, by omega, ?_⟩
    rw [getD_range_map _ w j hj]
    simp only [decide_eq_true_eq]
    omega

/-- The first row of the rectangle mask has length `w` (the mask is a
rectangular `h × w` grid). -/
theorem headD_rectMask (h w r1 r2 c1 c2 : Nat) (hh : 0 < h) :
    ((rectMask h w r1 r2 c1 c2).headD []).length = w := by
  obtain ⟨hp, rfl⟩ : ∃ hp, h = hp + 1 := ⟨h - 1, by omega⟩
  rw [rectMask, List.range_succ_eq_map]
  simp

/-- `find_red_bbox` on the canonical rectangle mask. -/
theorem find_red_bbox_rectMask (h w r1 r2 c1 c2 : Nat)
    (hr : r1 < r2) (hc : c1 < c2) (hrh : r2 < h) (hcw : c2 < w) :
    find_red_bbox (rectMask h w r1 r2 c1 c2) = some (c1, r1, c2, r2) := by
  have hrows := rows_rectMask h w r1 r2 c1 c2 (Nat.le_of_lt hc) hcw
  have hcols := cols_rectMask h w r1 r2 c1 c2 (Nat.le_of_lt hr) hrh
  have hhead := headD_rectMask h w r1 r2 c1 c2 (by omega)
  simp only [find_red_bbox]
  rw [hhead, hrows, hcols]
  rw [argmaxBool_range_band h r1 r2 (Nat.le_of_lt hr) hrh,
    argmaxBool_reverse_range_band h r1 r2 (Nat.le_of_lt hr) hrh,
    argmaxBool_range_band w c1 c2 (Nat.le_of_lt hc) hcw,
    argmaxBool_reverse_range_band w c1 c2 (Nat.le_of_lt hc) hcw]
  simp only [List.length_map, List.length_range]
  have e1 : w - 1 - (w - 1 - c2) = c2 := by omega
  have e2 : h - 1 - (h - 1 - r2) = r2 := by omega
  rw [e1, e2, if_neg (by omega)]

/-- Entry `i < l.length` of a list, with any default. -/
theorem getD_of_lt {γ : Type} (l : List γ) (i : Nat) (d : γ) (hi : i < l.length) :
    l.getD i d = l.get ⟨i, hi⟩ := by
  rw [List.getD_eq_getElem?_getD, List.getElem?_eq_getElem hi]
  rfl

/-- A rectangular `h × w` grid of booleans is determined by its entries:
a mask whose marked set is exactly the rectangle rows `r1..r2` by columns
`c1..c2` equals the canonical `rectMask`. -/
theorem eq_rectMask_of_pointwise (mask : List (List Bool)) (h w r1 r2 c1 c2 : Nat)
    (hlen : mask.length = h)
    (hrow : ∀ row ∈ mask, row.length = w)
    (hent : ∀ i, i < h → ∀ j, j < w →
      (mask.getD i []).getD j false = decide (r1 ≤ i ∧ i ≤ r2 ∧ c1 ≤ j ∧ j ≤ c2)) :
    mask = rectMask h w r1 r2 c1 c2 := by
  have hlen2 : (rectMask h w r1 r2 c1 c2).length = h := by
    rw [rectMask]
    simp
  refine List.ext_get (by rw [hlen, hlen2]) ?_
  intro i h1 h2
  have hi : i < h := by rw [hlen] at h1; exact h1
  have hwi : (mask.get ⟨i, h1⟩).length = w := hrow _ (mask.get_mem _ _)
  have hw2 : ((rectMask h w r1 r2 c1 c2).get ⟨i, h2⟩).length = w := by
    simp [rectMask, List.get_eq_getElem]
  refine List.ext_get (by rw [hwi, hw2]) ?_
  intro j hj1 hj2
  have hjw : j < w := by rw [hwi] at hj1; exact hj1
  have he := hent i hi j hjw
  rw [getD_of_lt mask i [] h1, getD_of_lt _ j false hj1] at he
  rw [he]
  simp [rectMask, List.get_eq_getElem]

/-- **C2**: for every color mask whose marked pixels occupy exactly the
axis-aligned rectangle of rows `r1..r2` and columns `c1..c2` (positive height
`r1 < r2` and width `c1 < c2`, inside the rectangular `h × w` grid),
`find_red_bbox` recovers exactly that rectangle: `y_top = r1` is the first
marked row from the top, `y_bottom = r2` the first marked row counting
backward from the bottom, and `x_left = c1` / `x_right = c2` the first/last
marked columns. -/
theorem find_red_bbox_exact_rect (mask : List (List Bool)) (h w r1 r2 c1 c2 : Nat)
    (hr : r1 < r2) (hc : c1 < c2) (hrh : r2 < h) (hcw : c2 < w)
    (hlen : mask.length = h)
    (hrow : ∀ row ∈ mask, row.length = w)
    (hent : ∀ i, i < h → ∀ j, j < w →
      (mask.getD i []).getD j false = decide (r1 ≤ i ∧ i ≤ r2 ∧ c1 ≤ j ∧ j ≤ c2)) :
    find_red_bbox mask = some (c1, r1, c2, r2) := by
  rw [eq_rectMask_of_pointwise mask h w r1 r2 c1 c2 hlen hrow hent]
  exact find_red_bbox_rectMask h w r1 r2 c1 c2 hr hc hrh hcw

/-- The `4 × 5` mask whose marked pixels are exactly rows `1..2` by
columns `1..3`. -/
def rectWitnessMask : List (List Bool) :=
  [[false, false, false, false, false],
   [false, true, true, true, false],
   [false, true, true, true, false],
   [false, false, false, false, false]]

/-- Witness for `find_red_bbox_exact_rect` on the concrete `4 × 5` mask
marking rows `1..2`, columns `1..3`. -/
theorem find_red_bbox_exact_rect_witness :
    ((1 : Nat) < 2 ∧ (1 : Nat) < 3 ∧ (2 : Nat) < 4 ∧ (3 : Nat) < 5)
      ∧ rectWitnessMask.length = 4
      ∧ (∀ row ∈ rectWitnessMask, row.length = 5)
      ∧ (∀ i, i < 4 → ∀ j, j < 5 →
          (rectWitnessMask.getD i []).getD j false
            = decide (1 ≤ i ∧ i ≤ 2 ∧ 1 ≤ j ∧ j ≤ 3))
      ∧ find_red_bbox rectWitnessMask = some (1, 1, 3, 2) :=
  ⟨by decide, by decide, by decide, by decide,
    find_red_bbox_exact_rect rectWitnessMask 4 5 1 2 1 3 (by decide) (by decide)
      (by decide) (by decide) (by decide) (by decide) (by decide)⟩

/-- **C1** (behavior of the code at the failing input): on the `2 × 2`
all-false color mask — no pixel in the color range, so no row and no column is
marked — `find_red_bbox` does *not* fail: `np.argmax` over an all-false vector
returns index `0` in every one of the four scans, so the derived box is the
full-frame `(0, 0, 1, 1)`, which passes the degeneracy check
`x_left >= x_right or y_top >= y_bottom` and is returned as a default box,
contradicting the required "no marker detected" failure. -/
theorem find_red_bbox_allFalse_default_box :
    find_red_bbox [[false, false], [false, false]] = some (0, 0, 1, 1) := by decide

/-- The ellipse geometry derived from the bounding box (`cover_red.py`,
lines 81-82): `center = ((x_left + x_right) // 2, (y_top + y_bottom) // 2)`,
`axes = ((x_right - x_left) // 2, (y_bottom - y_top) // 2)`.  Python floor
division `//` on the non-negative box coordinates is `Nat` division. -/
def ellipse_geometry (bbox : Nat × Nat × Nat × Nat) : (Nat × Nat) × (Nat × Nat) :=
  match bbox with
  | (x_left, y_top, x_right, y_bottom) =>
    (((x_left + x_right) / 2, (y_top + y_bottom) / 2),
     ((x_right - x_left) / 2, (y_bottom - y_top) / 2))

/-- **C4**: for every bounding box `(x_left, y_top, x_right, y_bottom)` the
ellipse center is `((x_left+x_right)//2, (y_top+y_bottom)//2)` and the
semi-axes are `((x_right-x_left)//2, (y_bottom-y_top)//2)`, both with integer
floor division; in particular box `(10, 20, 110, 120)` yields center
`(60, 70)` and semi-axes `(50, 50)`. -/
theorem ellipse_geometry_spec :
    (∀ x_left y_top x_right y_bottom : Nat,
        ellipse_geometry (x_left, y_top, x_right, y_bottom)
          = (((x_left + x_right) / 2, (y_top + y_bottom) / 2),
             ((x_right - x_left) / 2, (y_bottom - y_top) / 2)))
      ∧ ellipse_geometry (10, 20, 110, 120) = ((60, 70), (50, 50)) :=
  ⟨fun _ _ _ _ => rfl, by decide⟩

/-- A pixel: the three 8-bit BGR channel values. -/
abbrev Pixel := Nat × Nat × Nat

/-- The filled axis-aligned ellipse rasterized by
`cv2.ellipse(mask, center, axes, 0, 0, 360, 255, -1)` (full sweep, negative
thickness = filled): mask pixel `(x, y)` is set to `255` exactly on the
integer points of the closed filled ellipse with the given center and
semi-axes.  `ellipse_mask_at center axes x y = true` iff mask pixel `(x, y)`
is `255`. -/
def ellipse_mask_at (center axes : Nat × Nat) (x y : Nat) : Bool :=
  decide (((x : Int) - center.1) ^ 2 * (axes.2 : Int) ^ 2
      + ((y : Int) - center.2) ^ 2 * (axes.1 : Int) ^ 2
    ≤ (axes.1 : Int) ^ 2 * (axes.2 : Int) ^ 2)

/-- Pixel `(x, y)` lies strictly inside the ellipse. -/
def StrictlyInside (center axes : Nat × Nat) (x y : Nat) : Prop :=
  ((x : Int) - center.1) ^ 2 * (axes.2 : Int) ^ 2
      + ((y : Int) - center.2) ^ 2 * (axes.1 : Int) ^ 2
    < (axes.1 : Int) ^ 2 * (axes.2 : Int) ^ 2

/-- Pixel `(x, y)` lies strictly outside the ellipse. -/
def StrictlyOutside (center axes : Nat × Nat) (x y : Nat) : Prop :=
  (axes.1 : Int) ^ 2 * (axes.2 : Int) ^ 2
    < ((x : Int) - center.1) ^ 2 * (axes.2 : Int) ^ 2
      + ((y : Int) - center.2) ^ 2 * (axes.1 : Int) ^ 2

instance (center axes : Nat × Nat) (x y : Nat) :
    Decidable (StrictlyInside center axes x y) := by
  unfold StrictlyInside; infer_instance

instance (center axes : Nat × Nat) (x y : Nat) :
    Decidable (StrictlyOutside center axes x y) := by
  unfold StrictlyOutside; infer_instance

/-- The compositing step (`cover_red.py`, line 88):
`img_bgr[ellipse_mask != 255] = (0, 0, 0)` — every pixel where the ellipse
mask is not `255` becomes black, every other pixel keeps its input value. -/
def apply_ellipse_mask (img : List (List Pixel)) (center axes : Nat × Nat) :
    List (List Pixel) :=
  img.mapIdx (fun y row => row.mapIdx (fun x px =>
    if ellipse_mask_at center axes x y then px else (0, 0, 0)))

/-- The row `y < img.length` of the composited image. -/
theorem apply_ellipse_mask_row (img : List (List Pixel)) (center axes : Nat × Nat)
    (y : Nat) (hy : y < img.length) :
    (apply_ellipse_mask img center axes).getD y []
      = (img.get ⟨y, hy⟩).mapIdx (fun x px =>
          if ellipse_mask_at center axes x y then px else (0, 0, 0)) := by
  unfold apply_ellipse_mask
  rw [List.getD_eq_getElem?_getD, List.getElem?_mapIdx, List.getElem?_eq_getElem hy]
  rfl

/-- Pixel `(x, y)` of the composited image is the input pixel when the ellipse
mask holds there and black otherwise. -/
theorem apply_ellipse_mask_getD (img : List (List Pixel)) (center axes : Nat × Nat)
    (x y : Nat) (hy : y < img.length) (hx : x < (img.getD y []).length) :
    ((apply_ellipse_mask img center axes).getD y []).getD x (0, 0, 0)
      = if ellipse_mask_at center axes x y then (img.getD y []).getD x (0, 0, 0)
        else (0, 0, 0) := by
  rw [List.getD_eq_getElem?_getD, List.getElem?_eq_getElem hy, Option.getD_some] at hx
  unfold apply_ellipse_mask
  simp only [List.getD_eq_getElem?_getD, List.getElem?_mapIdx,
    List.getElem?_eq_getElem hy, Option.map_some', Option.getD_some]
  rw [List.getElem?_eq_getElem hx]
  simp only [Option.map_some', Option.getD_some]

/-- **C3**: compositing is a per-pixel select with no blending at the
boundary: for every in-bounds pixel, if it lies strictly outside the computed
filled ellipse the output pixel is exactly `(0, 0, 0)` in all three channels,
and if it lies strictly inside the output pixel equals the corresponding
input pixel unchanged. -/
theorem apply_ellipse_mask_select (img : List (List Pixel)) (center axes : Nat × Nat)
    (x y : Nat) (hy : y < img.length) (hx : x < (img.getD y []).length) :
    (StrictlyOutside center axes x y →
        ((apply_ellipse_mask img center axes).getD y []).getD x (0, 0, 0) = (0, 0, 0))
      ∧ (StrictlyInside center axes x y →
        ((apply_ellipse_mask img center axes).getD y []).getD x (0, 0, 0)
          = (img.getD y []).getD x (0, 0, 0)) := by
  rw [apply_ellipse_mask_getD img center axes x y hy hx]
  constructor
  · intro hout
    rw [if_neg]
    simp only [ellipse_mask_at, decide_eq_true_eq, not_le]
    exact hout
  · intro hin
    rw [if_pos]
    simp only [ellipse_mask_at, decide_eq_true_eq]
    exact le_of_lt hin

/-- A concrete `3 × 3` test image with pairwise distinct pixels. -/
def sampleImg : List (List Pixel) :=
  [[(1, 2, 3), (4, 5, 6), (7, 8, 9)],
   [(10, 11, 12), (13, 14, 15), (16, 17, 18)],
   [(19, 20, 21), (22, 23, 24), (25, 26, 27)]]

/-- Witness for `apply_ellipse_mask_select` on `sampleImg` with center
`(1, 1)` and semi-axes `(1, 1)`: the corner `(0, 0)` is strictly outside and
becomes black; the center `(1, 1)` is strictly inside and is unchanged. -/
theorem apply_ellipse_mask_select_witness :
    (StrictlyOutside (1, 1) (1, 1) 0 0 ∧
        ((apply_ellipse_mask sampleImg (1, 1) (1, 1)).getD 0 []).getD 0 (0, 0, 0) = (0, 0, 0))
      ∧ (StrictlyInside (1, 1) (1, 1) 1 1 ∧
        ((apply_ellipse_mask sampleImg (1, 1) (1, 1)).getD 1 []).getD 1 (0, 0, 0)
          = (sampleImg.getD 1 []).getD 1 (0, 0, 0)) :=
  ⟨⟨by decide,
      (apply_ellipse_mask_select sampleImg (1, 1) (1, 1) 0 0 (by decide) (by decide)).1
        (by decide)⟩,
    ⟨by decide,
      (apply_ellipse_mask_select sampleImg (1, 1) (1, 1) 1 1 (by decide) (by decide)).2
        (by decide)⟩⟩

/-- A file path, modelled as the containing directory, the filename stem and
the final suffix (extension, dot included): the `pathlib.Path` data the
script uses, with `name = stem ++ suffix`. -/
structure FPath where
  dir : String
  stem : String
  suffix : String
deriving DecidableEq

/-- Python `str.endswith(t)`: `t` is a suffix of the character sequence. -/
def strEndsWith (s t : String) : Bool :=
  t.data.isSuffixOf s.data

/-- Python `str.upper()` (on the ASCII extension strings of the script):
uppercase every character. -/
def strUpper (s : String) : String :=
  ⟨s.data.map Char.toUpper⟩

/-- The accepted image extensions of the batch scan (`cover_red.py`,
line 101). -/
def image_extensions : List String :=
  [".jpg", ".jpeg", ".png", ".bmp", ".tiff"]

/-- The glob phase of `process_all_images_in_folder` (lines 104-106): for
each accepted extension `ext` the files matching `*{ext}` and
`*{ext.upper()}` are collected, so a file is collected iff its name ends
with the extension exactly as written (all lowercase) or fully
uppercased. -/
def matches_image_ext (name : String) : Bool :=
  image_extensions.any (fun e => strEndsWith name e || strEndsWith name (strUpper e))

/-- The re-processing filter (line 109): a file whose stem ends with
`'_mask'` or `'_keep_red'` is dropped from the batch. -/
def is_output_stem (stem : String) : Bool :=
  strEndsWith stem "_mask" || strEndsWith stem "_keep_red"

/-- Batch discovery (`process_all_images_in_folder`, lines 100-109): a file
is selected iff its name matches an accepted image-extension pattern and its
stem does not carry an output-suffix marker. -/
def batch_selects (f : FPath) : Bool :=
  matches_image_ext (f.stem ++ f.suffix) && !(is_output_stem f.stem)

/-- `Path.with_stem`: replace the stem, keep directory and suffix. -/
def with_stem (p : FPath) (s : String) : FPath :=
  ⟨p.dir, s, p.suffix⟩

/-- `Path.with_suffix`: replace the suffix, keep directory and stem. -/
def with_suffix (p : FPath) (s : String) : FPath :=
  ⟨p.dir, p.stem, s⟩

/-- The output path of `mask_red_ellipse` (line 91):
`image_path.with_stem(image_path.stem + "_keep_red").with_suffix(".jpg")`. -/
def out_path (p : FPath) : FPath :=
  with_suffix (with_stem p (p.stem ++ "_keep_red")) ".jpg"

/-- The two failure kinds of `mask_red_ellipse`: the `FileNotFoundError` for
an unreadable image (line 67) and the `RuntimeError` of a failed detection
(raised inside `find_red_bbox`, line 51). -/
inductive MaskErr : Type
  | fileNotFound : MaskErr
  | noMarker : MaskErr
deriving DecidableEq

/-- `mask_red_ellipse` (`cover_red.py`, lines 56-93), embedded over an
abstract file store `fs` (what `cv2.imread` decodes at each path; `none` for
a missing or unreadable image) and over the color-thresholding stage
`toMask` (the composition of `cv2.cvtColor(-, COLOR_BGR2HSV)` with
`cv2.inRange(lower_red, upper_red)` of lines 70-75, abstracted as the
binary mask it produces; the theorems below hold for every threshold
outcome).  The first component is the returned `(bbox, out_path)` pair, with
a raised exception embedded as an `error`; the second component is the list
of file writes performed (`cv2.imwrite`, line 92). -/
def mask_red_ellipse (fs : FPath → Option (List (List Pixel)))
    (toMask : List (List Pixel) → List (List Bool)) (image_path : FPath) :
    Except MaskErr ((Nat × Nat × Nat × Nat) × FPath)
      × List (FPath × List (List Pixel)) :=
  match fs image_path with
  | none => (Except.error MaskErr.fileNotFound, [])
  | some img_bgr =>
    match find_red_bbox (toMask img_bgr) with
    | none => (Except.error MaskErr.noMarker, [])
    | some bbox =>
      let geom := ellipse_geometry bbox
      let masked := apply_ellipse_mask img_bgr geom.1 geom.2
      (Except.ok (bbox, out_path image_path), [(out_path image_path, masked)])

/-- Unfolding `mask_red_ellipse` on an unreadable image. -/
theorem mask_red_ellipse_eq_of_load_fail (fs : FPath → Option (List (List Pixel)))
    (toMask : List (List Pixel) → List (List Bool)) (p : FPath)
    (h : fs p = none) :
    mask_red_ellipse fs toMask p = (Except.error MaskErr.fileNotFound, []) := by
  simp only [mask_red_ellipse, h]

/-- Unfolding `mask_red_ellipse` on a readable image with failed detection. -/
theorem mask_red_ellipse_eq_of_detect_fail (fs : FPath → Option (List (List Pixel)))
    (toMask : List (List Pixel) → List (List Bool)) (p : FPath)
    (img : List (List Pixel)) (h1 : fs p = some img)
    (h2 : find_red_bbox (toMask img) = none) :
    mask_red_ellipse fs toMask p = (Except.error MaskErr.noMarker, []) := by
  simp only [mask_red_ellipse, h1, h2]

/-- Unfolding `mask_red_ellipse` on a successful run. -/
theorem mask_red_ellipse_eq_of_ok (fs : FPath → Option (List (List Pixel)))
    (toMask : List (List Pixel) → List (List Bool)) (p : FPath)
    (img : List (List Pixel)) (bbox : Nat × Nat × Nat × Nat)
    (h1 : fs p = some img) (h2 : find_red_bbox (toMask img) = some bbox) :
    mask_red_ellipse fs toMask p
      = (Except.ok (bbox, out_path p),
         [(out_path p,
           apply_ellipse_mask img (ellipse_geometry bbox).1 (ellipse_geometry bbox).2)]) := by
  simp only [mask_red_ellipse, h1, h2]

/-- The single-image branch of `__main__` (lines 135-138): it calls
`mask_red_ellipse` with no exception handler, so a raised condition
propagates to the caller and terminates the run. -/
def main_single (fs : FPath → Option (List (List Pixel)))
    (toMask : List (List Pixel) → List (List Bool)) (p : FPath) :
    Except MaskErr ((Nat × Nat × Nat × Nat) × FPath) :=
  (mask_red_ellipse fs toMask p).1

/-- The per-image loop of `process_all_images_in_folder` (lines 117-126):
`success_count` starts at `0`; each file is processed inside a
`try`/`except` that increments the counter on success and records the
file in the failure diagnostics on any exception, and the loop always
continues with the next file.  The result is the final success counter
together with the list of files reported as failed, in order. -/
def batch_loop {α β : Type} (process : α → Option β) (files : List α) :
    Nat × List α :=
  files.foldl
    (fun acc f =>
      match process f with
      | some _ => (acc.1 + 1, acc.2)
      | none => (acc.1, acc.2 ++ [f]))
    (0, [])

/-- A string always ends with its own final segment. -/
theorem strEndsWith_append (s t : String) : strEndsWith (s ++ t) t = true := by
  rw [strEndsWith, String.data_append]
  exact List.isSuffixOf_iff_suffix.mpr (List.suffix_append s.data t.data)

/-- **C5**: batch discovery is idempotent against re-processing: the output
file written by `mask_red_ellipse` for any input path — stem extended by
`_keep_red`, suffix `.jpg` — is never selected as an input by the batch scan,
since the filter of line 109 drops every stem ending in `_keep_red`.  This
holds in particular on a second run over a directory already holding the
outputs of a first run. -/
theorem batch_never_selects_output (p : FPath) :
    batch_selects (out_path p) = false := by
  have h : is_output_stem (out_path p).stem = true := by
    rw [out_path, with_suffix, with_stem, is_output_stem]
    simp only [strEndsWith_append, Bool.or_true]
  rw [batch_selects, h]
  simp

/-- **C9** (counterexample to case-insensitive discovery): a file named
`a.jpg` is selected by the glob phase and `a.JPG` as well, but `a.Jpg` —
the same accepted JPEG extension in mixed case — is not: globbing is done
only against the lowercase pattern and its fully-uppercased variant, not
case-insensitively. -/
theorem matches_image_ext_mixed_case :
    matches_image_ext "a.jpg" = true ∧ matches_image_ext "a.JPG" = true ∧
      matches_image_ext "a.Jpg" = false := by
  refine ⟨?_, ?_, ?_⟩ <;> rfl

/-- **C9** (amended): the batch glob selects every file whose name ends with
an accepted image extension written in all-lowercase form, and every file
whose name ends with its fully-uppercased variant. -/
theorem matches_image_ext_lower_upper (stem e : String)
    (he : e ∈ image_extensions) :
    matches_image_ext (stem ++ e) = true
      ∧ matches_image_ext (stem ++ strUpper e) = true := by
  constructor
  · rw [matches_image_ext]
    refine List.any_eq_true.mpr ⟨e, he, ?_⟩
    simp only [strEndsWith_append, Bool.true_or]
  · rw [matches_image_ext]
    refine List.any_eq_true.mpr ⟨e, he, ?_⟩
    simp only [strEndsWith_append, Bool.or_true]

/-- Witness for `matches_image_ext_lower_upper` at stem `x` and extension
`.png`. -/
theorem matches_image_ext_lower_upper_witness :
    (".png" : String) ∈ image_extensions
      ∧ matches_image_ext ("x" ++ ".png") = true
      ∧ matches_image_ext ("x" ++ strUpper ".png") = true :=
  ⟨by decide, (matches_image_ext_lower_upper "x" ".png" (by decide)).1,
    (matches_image_ext_lower_upper "x" ".png" (by decide)).2⟩

/-- **C7**: for every path at which the image cannot be decoded
(`cv2.imread` yields nothing), `mask_red_ellipse` fails with the
`FileNotFoundError` condition and performs no write, and in single-image
invocation this condition propagates to the caller unchanged. -/
theorem mask_red_ellipse_unreadable (fs : FPath → Option (List (List Pixel)))
    (toMask : List (List Pixel) → List (List Bool)) (p : FPath)
    (h : fs p = none) :
    (mask_red_ellipse fs toMask p).1 = Except.error MaskErr.fileNotFound
      ∧ main_single fs toMask p = Except.error MaskErr.fileNotFound := by
  rw [main_single, mask_red_ellipse_eq_of_load_fail fs toMask p h]
  exact ⟨rfl, rfl⟩

/-- Witness for `mask_red_ellipse_unreadable`: the empty file store. -/
theorem mask_red_ellipse_unreadable_witness :
    ((fun _ : FPath => (none : Option (List (List Pixel)))) ⟨"d", "a", ".jpg"⟩
        = none)
      ∧ (mask_red_ellipse (fun _ => none) (fun _ => []) ⟨"d", "a", ".jpg"⟩).1
          = Except.error MaskErr.fileNotFound
      ∧ main_single (fun _ => none) (fun _ => []) ⟨"d", "a", ".jpg"⟩
          = Except.error MaskErr.fileNotFound :=
  ⟨rfl,
    (mask_red_ellipse_unreadable (fun _ => none) (fun _ => []) ⟨"d", "a", ".jpg"⟩ rfl).1,
    (mask_red_ellipse_unreadable (fun _ => none) (fun _ => []) ⟨"d", "a", ".jpg"⟩ rfl).2⟩

/-- **C10**: atomicity on error: whenever `mask_red_ellipse` fails — with the
unreadable-image condition or the detection-failure condition — its list of
file writes is empty: the single `cv2.imwrite` happens only after loading,
detection, mask construction and compositing have all succeeded, so a failed
invocation leaves the filesystem unchanged. -/
theorem mask_red_ellipse_atomic (fs : FPath → Option (List (List Pixel)))
    (toMask : List (List Pixel) → List (List Bool)) (p : FPath) (e : MaskErr)
    (h : (mask_red_ellipse fs toMask p).1 = Except.error e) :
    (mask_red_ellipse fs toMask p).2 = [] := by
  cases hfs : fs p with
  | none => rw [mask_red_ellipse_eq_of_load_fail fs toMask p hfs]
  | some img =>
    cases hbb : find_red_bbox (toMask img) with
    | none => rw [mask_red_ellipse_eq_of_detect_fail fs toMask p img hfs hbb]
    | some bbox =>
      rw [mask_red_ellipse_eq_of_ok fs toMask p img bbox hfs hbb] at h
      simp at h

/-- Witness for `mask_red_ellipse_atomic`: a readable image whose color mask
is empty on a `1 × 1` grid, so detection fails, and no write happens. -/
theorem mask_red_ellipse_atomic_witness :
    (mask_red_ellipse (fun _ => some [[(9, 9, 9)]]) (fun _ => [[false]])
          ⟨"d", "b", ".jpg"⟩).1
        = Except.error MaskErr.noMarker
      ∧ (mask_red_ellipse (fun _ => some [[(9, 9, 9)]]) (fun _ => [[false]])
          ⟨"d", "b", ".jpg"⟩).2 = [] :=
  ⟨rfl,
    mask_red_ellipse_atomic (fun _ => some [[(9, 9, 9)]]) (fun _ => [[false]])
      ⟨"d", "b", ".jpg"⟩ MaskErr.noMarker rfl⟩

/-- **C8** (counterexample to "same image format"): a successful run on the
PNG input `d/photo.png` persists the composite at `d/photo_keep_red.jpg` —
the suffix is always `.jpg`, which differs from the input's `.png` format. -/
theorem mask_red_ellipse_png_saved_as_jpg :
    (mask_red_ellipse (fun _ => some sampleImg) (fun _ => rectMask 3 3 0 1 0 1)
          ⟨"d", "photo", ".png"⟩).1
        = Except.ok ((0, 0, 1, 1), ⟨"d", "photo_keep_red", ".jpg"⟩)
      ∧ (".jpg" : String) ≠ ".png" :=
  ⟨rfl, by decide⟩

/-- **C8** (amended): on every successful run the composited image is
persisted at the derived path: same directory as the input (alongside it),
stem equal to the input stem plus the fixed `_keep_red` suffix marker, and
always the `.jpg` (JPEG) extension regardless of the input's format; the
write performed is exactly one, at that path. -/
theorem mask_red_ellipse_saves_derived_name
    (fs : FPath → Option (List (List Pixel)))
    (toMask : List (List Pixel) → List (List Bool)) (p : FPath)
    (r : (Nat × Nat × Nat × Nat) × FPath)
    (h : (mask_red_ellipse fs toMask p).1 = Except.ok r) :
    r.2 = out_path p
      ∧ (out_path p).dir = p.dir
      ∧ (out_path p).stem = p.stem ++ "_keep_red"
      ∧ (out_path p).suffix = ".jpg"
      ∧ ∃ img, (mask_red_ellipse fs toMask p).2 = [(out_path p, img)] := by
  cases hfs : fs p with
  | none =>
    rw [mask_red_ellipse_eq_of_load_fail fs toMask p hfs] at h
    simp at h
  | some img =>
    cases hbb : find_red_bbox (toMask img) with
    | none =>
      rw [mask_red_ellipse_eq_of_detect_fail fs toMask p img hfs hbb] at h
      simp at h
    | some bbox =>
      rw [mask_red_ellipse_eq_of_ok fs toMask p img bbox hfs hbb] at h ⊢
      simp only [Except.ok.injEq] at h
      exact ⟨by rw [← h], rfl, rfl, rfl,
        ⟨apply_ellipse_mask img (ellipse_geometry bbox).1 (ellipse_geometry bbox).2, rfl⟩⟩

/-- Witness for `mask_red_ellipse_saves_derived_name` on a concrete
successful run. -/
theorem mask_red_ellipse_saves_derived_name_witness :
    (mask_red_ellipse (fun _ => some sampleImg) (fun _ => rectMask 3 3 0 1 0 1)
          ⟨"d", "photo", ".png"⟩).1
        = Except.ok ((0, 0, 1, 1), ⟨"d", "photo_keep_red", ".jpg"⟩)
      ∧ ((0, 0, 1, 1), (⟨"d", "photo_keep_red", ".jpg"⟩ : FPath)).2
          = out_path ⟨"d", "photo", ".png"⟩ :=
  ⟨rfl,
    (mask_red_ellipse_saves_derived_name (fun _ => some sampleImg)
      (fun _ => rectMask 3 3 0 1 0 1) ⟨"d", "photo", ".png"⟩
      ((0, 0, 1, 1), ⟨"d", "photo_keep_red", ".jpg"⟩) rfl).1⟩

/-- Unrolling the batch loop from an arbitrary intermediate counter and
failure record. -/
theorem batch_loop_foldl {α β : Type} (process : α → Option β) (files : List α)
    (n : Nat) (acc : List α) :
    files.foldl
        (fun acc f =>
          match process f with
          | some _ => (acc.1 + 1, acc.2)
          | none => (acc.1, acc.2 ++ [f]))
        (n, acc)
      = (n + (files.filter (fun f => (process f).isSome)).length,
         acc ++ files.filter (fun f => (process f).isNone)) := by
  induction files generalizing n acc with
  | nil => simp
  | cons a l ih =>
    rw [List.foldl_cons]
    cases hp : process a with
    | some b =>
      simp only [hp, ih, List.filter_cons, Option.isSome_some, Option.isNone_some,
        List.length_cons, ite_true, ite_false, Prod.mk.injEq, List.append_assoc]
      exact ⟨by omega, rfl⟩
    | none =>
      simp only [hp, ih, List.filter_cons, Option.isSome_none, Option.isNone_none,
        List.length_cons, ite_true, ite_false, Prod.mk.injEq, List.append_assoc]
      exact ⟨rfl, by simp⟩

/-- The success filter and the failure filter split the batch. -/
theorem length_filter_some_none {α β : Type} (process : α → Option β)
    (files : List α) :
    (files.filter (fun f => (process f).isSome)).length
      + (files.filter (fun f => (process f).isNone)).length = files.length := by
  induction files with
  | nil => rfl
  | cons a l ih =>
    cases hp : process a with
    | none =>
      simp [List.filter_cons, hp]
      omega
    | some b =>
      simp [List.filter_cons, hp]
      omega

/-- **C6**: the batch loop catches every per-image failure and never aborts
early — it folds over all `N` discovered files — its failure diagnostics name
exactly the failed files, in order, and the final reported success count is
`N - K` when `K` of the `N` discovered files fail. -/
theorem batch_loop_summary {α β : Type} (process : α → Option β) (files : List α) :
    (batch_loop process files).1
        = files.length - (files.filter (fun f => (process f).isNone)).length
      ∧ (batch_loop process files).2 = files.filter (fun f => (process f).isNone) := by
  rw [batch_loop, batch_loop_foldl process files 0 []]
  have hpart := length_filter_some_none process files
  constructor
  · simp only []
    omega
  · simp

end CoverRed
